import Mathlib

/-!
Shallow embedding of `src/packages/platform/src/lib/form-field.ts`
(createFormField and the FormField operations), together with the
parts of the external validation collaborator that the field surface
uses, modelled from the specification where the collaborator's code
is not part of the repository sources.

JavaScript values are modelled as `Option α`: `none` plays the role of
`undefined`, and `some a` a defined value.  Signal propagation follows
the specification's scheduling model: every value write is followed by
one synchronous run of the dirty-tracking effect over a consistent
snapshot of the value cell.
-/

namespace NgSignalForms

/-- The `DirtyState` type of form-field.ts: `PRISTINE` or `DIRTY`. -/
inductive DirtyState where
  | PRISTINE
  | DIRTY
deriving DecidableEq

/-- The `TouchedState` type of form-field.ts: `TOUCHED` or `UNTOUCHED`. -/
inductive TouchedState where
  | TOUCHED
  | UNTOUCHED
deriving DecidableEq

/-- The mutable state of one created form field: the value cell
(`valueSignal`), the two interaction-state cells
(`touchedStateSignal`, `dirtyStateSignal`), the dirty-tracking
effect's closure variable `previousValue` (form-field.ts line 133,
initialised to `undefined`, which is the same token `none` as an
undefined field value), and the single reset-callback slot `onReset`
(line 186), modelled as a callback identifier with `0` standing for
the initial no-op callback. -/
structure FieldState (α : Type) where
  value : Option α
  touchedState : TouchedState
  dirtyState : DirtyState
  previousValue : Option α
  onReset : Nat
deriving DecidableEq

/-- One run of the dirty-tracking effect body (form-field.ts lines
134-146): read the value cell; if a previous value was recorded
(`previousValue !== undefined`) and the new value differs from it
(`newValue !== previousValue`), set `dirtyStateSignal` to `DIRTY`;
then record the new value as the previous value. -/
def runDirtyEffect {α : Type} [DecidableEq α] (s : FieldState α) : FieldState α :=
  if s.previousValue ≠ none ∧ s.value ≠ s.previousValue then
    { s with dirtyState := DirtyState.DIRTY, previousValue := s.value }
  else
    { s with previousValue := s.value }

/-- The field state right after construction with initial value `v0`:
value cell holds `v0`, `UNTOUCHED`, `PRISTINE`, `previousValue`
initialised to `undefined`, no reset callback registered; the
dirty-tracking effect then performs its first run, observing `v0`
(form-field.ts lines 125-146). -/
def initState {α : Type} [DecidableEq α] (v0 : Option α) : FieldState α :=
  runDirtyEffect
    { value := v0
      touchedState := TouchedState.UNTOUCHED
      dirtyState := DirtyState.PRISTINE
      previousValue := none
      onReset := 0 }

/-- The synchronous body of `reset()` before the reactive propagation:
`valueSignal.set(defaultValue)`, `touchedStateSignal.set('UNTOUCHED')`,
`dirtyStateSignal.set('PRISTINE')` (form-field.ts lines 215-217).
This is the field state the reset callback observes when it is invoked
on line 218. -/
def resetSync {α : Type} (d : Option α) (s : FieldState α) : FieldState α :=
  { s with
      value := d
      touchedState := TouchedState.UNTOUCHED
      dirtyState := DirtyState.PRISTINE }

/-- The mutating operations of the public FormField surface that act on
the field state: a value write through the `value` signal, the marking
calls, registration of a reset callback, and `reset()`. -/
inductive Op (α : Type) where
  | write (v : Option α)
  | markAsTouched
  | markAsDirty
  | registerOnReset (id : Nat)
  | reset
deriving DecidableEq

/-- One operation followed by the reactive propagation it triggers:
a value write (and the value write inside `reset()`) is followed by one
run of the dirty-tracking effect; `markAsTouched` (line 202),
`markAsDirty` (line 203) and `registerOnReset` (line 213) write their
cell or slot directly and trigger no value propagation.  `d` is the
captured `defaultValue` (lines 184-185). -/
def step {α : Type} [DecidableEq α] (d : Option α) (s : FieldState α) : Op α → FieldState α
  | Op.write v => runDirtyEffect { s with value := v }
  | Op.markAsTouched => { s with touchedState := TouchedState.TOUCHED }
  | Op.markAsDirty => { s with dirtyState := DirtyState.DIRTY }
  | Op.registerOnReset id => { s with onReset := id }
  | Op.reset => runDirtyEffect (resetSync d s)

/-- Run a sequence of operations from a state. -/
def run {α : Type} [DecidableEq α] (d : Option α) (s : FieldState α) (ops : List (Op α)) :
    FieldState α :=
  ops.foldl (step d) s

/-- The `dirty` computed signal (form-field.ts line 128):
`dirtyStateSignal() === 'DIRTY'`. -/
def dirty {α : Type} (s : FieldState α) : Bool :=
  decide (s.dirtyState = DirtyState.DIRTY)

/-- The `touched` computed signal (form-field.ts line 126):
`touchedStateSignal() === 'TOUCHED'`. -/
def touched {α : Type} (s : FieldState α) : Bool :=
  decide (s.touchedState = TouchedState.TOUCHED)

/-- Modelled from the spec: the aggregate validation state of the
external validation collaborator, exposed by `computeState` — the tag
`'VALID'` or a non-valid tag (§4.2, §6 of the spec; `validation.ts` is
not among the repository sources). -/
inductive ValidationState where
  | VALID
  | INVALID
deriving DecidableEq

/-- The `state` signal as seen by the field: the external pipeline's
derivation of the validation state from the current value.  `stateOf`
abstracts the composition `computeState ∘ computeValidateState ∘
computeValidators` applied to the value cell (form-field.ts lines
112-122). -/
def stateView {α : Type} (stateOf : Option α → ValidationState) (s : FieldState α) :
    ValidationState :=
  stateOf s.value

/-- The `valid` computed signal (form-field.ts line 123):
`computed(() => stateSignal() === 'VALID')`. -/
def validView {α : Type} (stateOf : Option α → ValidationState) (s : FieldState α) : Bool :=
  decide (stateView stateOf s = ValidationState.VALID)

/-- Modelled from the spec: `ValidationErrors`, the mapping from error
key to message produced by `computeErrors` (§6; `validation.ts` is not
among the repository sources).  Realised as an association list whose
lookup returns the first binding; a missing key yields `none`, the
JavaScript `undefined`. -/
abbrev ValidationErrors := List (String × String)

/-- The JavaScript indexing `errors[key]`: the first binding of the
key, or `undefined`. -/
def lookupError (errs : ValidationErrors) (k : String) : Option String :=
  (errs.find? (fun p => p.1 == k)).map Prod.snd

/-- JavaScript truthiness of `errors[key]` as used by the `!!`
coercion: `undefined` and the empty string are falsy, every other
string is truthy. -/
def truthy : Option String → Bool
  | none => false
  | some m => decide (m ≠ "")

/-- The `hasError` closure (form-field.ts line 204):
`!!errorsSignal()[errorKey]`. -/
def hasError (errs : ValidationErrors) (k : String) : Bool :=
  truthy (lookupError errs k)

/-- Spec-side notion for C5, taken from the specification's words, to
be compared with `hasError`: the errors mapping currently contains an
entry for the key. -/
def errorsContainsKey (errs : ValidationErrors) (k : String) : Bool :=
  errs.any (fun p => p.1 == k)

/-- Modelled from the spec: an entry of `errorsArray` produced by
`computeErrorsArray`, exposing at least a `key` and a `message`
(§6; `validation.ts` is not among the repository sources). -/
structure InvalidDetails where
  key : String
  message : String
deriving DecidableEq

/-- The `errorMessage` closure (form-field.ts line 212):
`errorsArraySignal().find(e => e.key === errorKey)?.message`. -/
def errorMessage (arr : List InvalidDetails) (k : String) : Option String :=
  (arr.find? (fun e => e.key == k)).map InvalidDetails.message

/-- Validator references, modelled as opaque identifiers with
decidable equality (JavaScript reference identity). -/
abbrev Validator := Nat

/-- The `FormFieldOptions` bag (form-field.ts lines 82-87): an optional
validator list and three optional zero-argument predicates. -/
structure FormFieldOptions where
  validators : Option (List Validator) := none
  hidden : Option (Unit → Bool) := none
  disabled : Option (Unit → Bool) := none
  readOnly : Option (Unit → Bool) := none

/-- Modelled from the spec: the external collaborator's
`hasValidator(validatorList?, validatorRef)` (§6): whether the
reference is present among the configured validators, `false` when no
list was configured (§4.2, §7). -/
def hasValidatorExt (validators : Option (List Validator)) (v : Validator) : Bool :=
  match validators with
  | none => false
  | some l => l.contains v

/-- The field's `hasValidator` closure (form-field.ts lines 205-211):
delegate to the external collaborator when an options bag was
resolved, otherwise return `false`. -/
def fieldHasValidator (finalOptions : Option FormFieldOptions) (v : Validator) : Bool :=
  match finalOptions with
  | some o => hasValidatorExt o.validators v
  | none => false

/-- The observable events of one `reset()` call, in program order
(form-field.ts lines 214-219): the three cell writes followed by the
invocation of the registered reset callback with `defaultValue`. -/
inductive ResetEvent (α : Type) where
  | setValue (v : Option α)
  | setTouched (t : TouchedState)
  | setDirty (ds : DirtyState)
  | invokeCallback (id : Nat) (arg : Option α)
deriving DecidableEq

/-- The event trace of one `reset()` call from state `s` with captured
default `d`, mirroring the statement order of the `reset` closure:
`valueSignal.set(defaultValue)`, `touchedStateSignal.set('UNTOUCHED')`,
`dirtyStateSignal.set('PRISTINE')`, `onReset(defaultValue)`. -/
def resetTrace {α : Type} (d : Option α) (s : FieldState α) : List (ResetEvent α) :=
  [ ResetEvent.setValue d
  , ResetEvent.setTouched TouchedState.UNTOUCHED
  , ResetEvent.setDirty DirtyState.PRISTINE
  , ResetEvent.invokeCallback s.onReset d ]

/-- Whether a reset event is a callback invocation. -/
def isInvoke {α : Type} : ResetEvent α → Bool
  | ResetEvent.invokeCallback _ _ => true
  | _ => false

section HelperLemmas

variable {α : Type} [DecidableEq α]

@[simp]
theorem runDirtyEffect_value (s : FieldState α) : (runDirtyEffect s).value = s.value := by
  unfold runDirtyEffect
  split <;> rfl

@[simp]
theorem runDirtyEffect_previousValue (s : FieldState α) :
    (runDirtyEffect s).previousValue = s.value := by
  unfold runDirtyEffect
  split <;> rfl

@[simp]
theorem runDirtyEffect_touchedState (s : FieldState α) :
    (runDirtyEffect s).touchedState = s.touchedState := by
  unfold runDirtyEffect
  split <;> rfl

@[simp]
theorem runDirtyEffect_onReset (s : FieldState α) :
    (runDirtyEffect s).onReset = s.onReset := by
  unfold runDirtyEffect
  split <;> rfl

theorem runDirtyEffect_dirtyState_of_none (s : FieldState α)
    (h : s.previousValue = none) : (runDirtyEffect s).dirtyState = s.dirtyState := by
  unfold runDirtyEffect
  rw [if_neg]
  rintro ⟨h1, -⟩
  exact h1 h

theorem runDirtyEffect_dirtyState_of_ne (s : FieldState α)
    (h1 : s.previousValue ≠ none) (h2 : s.value ≠ s.previousValue) :
    (runDirtyEffect s).dirtyState = DirtyState.DIRTY := by
  unfold runDirtyEffect
  rw [if_pos ⟨h1, h2⟩]

theorem runDirtyEffect_dirtyState_mono (s : FieldState α)
    (h : s.dirtyState = DirtyState.DIRTY) :
    (runDirtyEffect s).dirtyState = DirtyState.DIRTY := by
  unfold runDirtyEffect
  split <;> simp [h]

@[simp]
theorem run_nil (d : Option α) (s : FieldState α) : run d s [] = s := rfl

@[simp]
theorem run_cons (d : Option α) (s : FieldState α) (op : Op α) (ops : List (Op α)) :
    run d s (op :: ops) = run d (step d s op) ops := rfl

theorem dirty_step_mono (d : Option α) (s : FieldState α) (op : Op α)
    (hop : op ≠ Op.reset) (h : dirty s = true) : dirty (step d s op) = true := by
  have hd : s.dirtyState = DirtyState.DIRTY := of_decide_eq_true h
  cases op with
  | write v =>
      exact decide_eq_true (runDirtyEffect_dirtyState_mono _ hd)
  | markAsTouched => exact decide_eq_true hd
  | markAsDirty => exact decide_eq_true rfl
  | registerOnReset id => exact decide_eq_true hd
  | reset => exact absurd rfl hop

theorem dirty_run_mono (d : Option α) (s : FieldState α) (ops : List (Op α))
    (hops : Op.reset ∉ ops) (h : dirty s = true) : dirty (run d s ops) = true := by
  induction ops generalizing s with
  | nil => exact h
  | cons op rest ih =>
      rw [run_cons]
      exact ih (step d s op) (fun hm => hops (List.mem_cons_of_mem _ hm))
        (dirty_step_mono d s op (fun he => hops (he ▸ List.mem_cons_self _ _)) h)

@[simp]
theorem step_write_touchedState (d : Option α) (s : FieldState α) (v : Option α) :
    (step d s (Op.write v)).touchedState = s.touchedState := by
  simp [step]

theorem touched_step_mono (d : Option α) (s : FieldState α) (op : Op α)
    (hop : op ≠ Op.reset) (h : touched s = true) : touched (step d s op) = true := by
  have ht : s.touchedState = TouchedState.TOUCHED := of_decide_eq_true h
  cases op with
  | write v => simpa [touched] using ht
  | markAsTouched => exact decide_eq_true rfl
  | markAsDirty => exact decide_eq_true ht
  | registerOnReset id => exact decide_eq_true ht
  | reset => exact absurd rfl hop

theorem touched_run_mono (d : Option α) (s : FieldState α) (ops : List (Op α))
    (hops : Op.reset ∉ ops) (h : touched s = true) : touched (run d s ops) = true := by
  induction ops generalizing s with
  | nil => exact h
  | cons op rest ih =>
      rw [run_cons]
      exact ih (step d s op) (fun hm => hops (List.mem_cons_of_mem _ hm))
        (touched_step_mono d s op (fun he => hops (he ▸ List.mem_cons_self _ _)) h)

theorem step_write_dirtyState_of_ne {α : Type} [DecidableEq α] (d : Option α)
    (s : FieldState α) (v : Option α)
    (h1 : s.previousValue ≠ none) (h2 : v ≠ s.previousValue) :
    (step d s (Op.write v)).dirtyState = DirtyState.DIRTY :=
  runDirtyEffect_dirtyState_of_ne { s with value := v } h1 h2

end HelperLemmas

/-- C1: the claim that after any mutation sequence followed by `reset()`
the field satisfies `value = defaultValue`, `dirty = false`,
`touched = false` fails on the code: with default value `0`, after
writing `1` and calling `reset()`, the propagation triggered by the
reset lets the dirty-tracking effect compare the restored default `0`
against the stale `previousValue = 1`, so `value` and `touchedState`
are restored but `dirtyState` ends up `DIRTY`. -/
theorem c1_reset_leaves_dirty :
    (run (some 0) (initState (some (0 : Nat))) [Op.write (some 1), Op.reset]).value = some 0
    ∧ (run (some 0) (initState (some (0 : Nat))) [Op.write (some 1), Op.reset]).touchedState
        = TouchedState.UNTOUCHED
    ∧ (run (some 0) (initState (some (0 : Nat))) [Op.write (some 1), Op.reset]).dirtyState
        = DirtyState.DIRTY := by
  decide

/-- C2: the claim that `reset()` clears the previous-value baseline to
a no-baseline sentinel fails on the code: the `reset` closure
(form-field.ts lines 214-219) never writes `previousValue`, so after
writing `1` to a field with default `0` the synchronous part of
`reset()` leaves the stale baseline `some 1` in place with
`dirtyState = PRISTINE`, and the very first observation of the
dirty-tracking effect after the reset then transitions `dirtyState` to
`DIRTY`. -/
theorem c2_reset_keeps_stale_baseline :
    (resetSync (some 0)
        (run (some 0) (initState (some (0 : Nat))) [Op.write (some 1)])).previousValue = some 1
    ∧ (resetSync (some 0)
        (run (some 0) (initState (some (0 : Nat))) [Op.write (some 1)])).dirtyState
        = DirtyState.PRISTINE
    ∧ (runDirtyEffect (resetSync (some 0)
        (run (some 0) (initState (some (0 : Nat))) [Op.write (some 1)]))).dirtyState
        = DirtyState.DIRTY := by
  decide

/-- C3: for a field constructed with a defined initial value, `dirty`
is `false` after the constructor's first (baseline) observation of the
value, becomes `true` exactly when the second distinct value is
observed (the first write of a value different from the initial one),
and once `DIRTY` no reset-free sequence of operations ever returns
`dirtyState` to `PRISTINE`. -/
theorem c3_dirty_second_observation {α : Type} [DecidableEq α] (d : Option α) (a : α)
    (v1 : Option α) (h1 : v1 ≠ some a) (ops : List (Op α)) (hops : Op.reset ∉ ops) :
    dirty (initState (some a)) = false
    ∧ dirty (step d (initState (some a)) (Op.write v1)) = true
    ∧ ∀ s : FieldState α, dirty s = true → dirty (run d s ops) = true := by
  have hprev : (initState (some a) : FieldState α).previousValue = some a := by
    unfold initState
    exact runDirtyEffect_previousValue _
  refine ⟨?_, ?_, fun s hs => dirty_run_mono d s ops hops hs⟩
  · have h0 : (initState (some a) : FieldState α).dirtyState = DirtyState.PRISTINE := by
      unfold initState
      exact runDirtyEffect_dirtyState_of_none _ rfl
    simp [dirty, h0]
  · apply decide_eq_true
    apply step_write_dirtyState_of_ne
    · rw [hprev]
      simp
    · rw [hprev]
      exact h1

/-- Witness for C3 at concrete inputs: a numeric field with default and
initial value `0`, the write of `1`, and the reset-free continuation
`[markAsTouched]`. -/
theorem c3_witness :
    dirty (initState (some (0 : Nat))) = false
    ∧ dirty (step (some 0) (initState (some (0 : Nat))) (Op.write (some 1))) = true
    ∧ dirty (run (some 0) (step (some 0) (initState (some (0 : Nat))) (Op.write (some 1)))
        [Op.markAsTouched]) = true :=
  have h := c3_dirty_second_observation (some 0) 0 (some 1) (by decide)
    [Op.markAsTouched] (by decide)
  ⟨h.1, h.2.1, h.2.2 _ h.2.1⟩

/-- C4: `touchedState` is never changed by a value write; it is set to
`TOUCHED` unconditionally by `markAsTouched()`, independent of the
value; once touched, no reset-free sequence of operations (in
particular no number of value writes) clears it; and the only
operation that can move `touchedState` back to `UNTOUCHED` is
`reset()`. -/
theorem c4_touched_only_explicit {α : Type} [DecidableEq α] (d : Option α) :
    (∀ (s : FieldState α) (v : Option α),
        (step d s (Op.write v)).touchedState = s.touchedState)
    ∧ (∀ s : FieldState α, (step d s Op.markAsTouched).touchedState = TouchedState.TOUCHED)
    ∧ (∀ (s : FieldState α) (ops : List (Op α)),
        Op.reset ∉ ops → touched s = true → touched (run d s ops) = true)
    ∧ (∀ (s : FieldState α) (op : Op α),
        (step d s op).touchedState = TouchedState.UNTOUCHED →
          s.touchedState = TouchedState.UNTOUCHED ∨ op = Op.reset) := by
  refine ⟨fun s v => step_write_touchedState d s v, fun s => rfl,
    fun s ops hops h => touched_run_mono d s ops hops h, ?_⟩
  intro s op h
  cases op with
  | write v =>
      left
      rw [← step_write_touchedState d s v]
      exact h
  | markAsTouched => simp [step] at h
  | markAsDirty => exact Or.inl h
  | registerOnReset id => exact Or.inl h
  | reset => exact Or.inr rfl

/-- Witness for C4 at concrete inputs: a numeric field with default
`0`, a write of `5`, an explicit `markAsTouched`, and the reset-free
continuation `[write 5, markAsDirty]`. -/
theorem c4_witness :
    (step (some (0 : Nat)) (initState (some 0)) (Op.write (some 5))).touchedState
        = (initState (some (0 : Nat))).touchedState
    ∧ (step (some (0 : Nat)) (initState (some 0)) Op.markAsTouched).touchedState
        = TouchedState.TOUCHED
    ∧ touched (run (some (0 : Nat)) (step (some 0) (initState (some 0)) Op.markAsTouched)
        [Op.write (some 5), Op.markAsDirty]) = true :=
  have h := c4_touched_only_explicit (some (0 : Nat))
  ⟨h.1 _ _, h.2.1 _, h.2.2.1 _ [Op.write (some 5), Op.markAsDirty] (by decide) (by decide)⟩

/-- Helper: `find?` returns the first entry of a split list whose
predicate holds when everything before it fails the predicate. -/
theorem find?_append_first {β : Type} (p : β → Bool) (pre post : List β) (e : β)
    (he : p e = true) (hpre : ∀ x ∈ pre, p x = false) :
    (pre ++ e :: post).find? p = some e := by
  induction pre with
  | nil => simpa using List.find?_cons_of_pos post he
  | cons a as ih =>
      rw [List.cons_append, List.find?_cons_of_neg]
      · exact ih fun x hx => hpre x (List.mem_cons_of_mem a hx)
      · simp [hpre a (List.mem_cons_self a as)]

/-- C5 counterexample: the errors mapping `{"x": ""}` contains an
entry for key `"x"`, yet `hasError("x")` is `false`, because the `!!`
coercion in form-field.ts line 204 treats the empty-string message as
falsy.  So `hasError(key)` is not equivalent to "the errors mapping
contains an entry for key". -/
theorem c5_counterexample :
    errorsContainsKey [("x", "")] "x" = true ∧ hasError [("x", "")] "x" = false := by
  decide

/-- C5 (amended): `hasError(key)` returns `true` iff the errors
mapping currently contains an entry for `key` whose message is truthy,
i.e. a binding to a non-empty message. -/
theorem c5_hasError_truthy_entry :
    ∀ (errs : ValidationErrors) (k : String),
      hasError errs k = true ↔ ∃ m, lookupError errs k = some m ∧ m ≠ "" := by
  intro errs k
  unfold hasError
  cases h : lookupError errs k with
  | none => simp [truthy]
  | some m => simp [truthy]

/-- Witness for C5 (amended) at a concrete errors mapping with a
non-empty message. -/
theorem c5_witness : hasError [("x", "msg")] "x" = true :=
  (c5_hasError_truthy_entry [("x", "msg")] "x").mpr ⟨"msg", by decide, by decide⟩

/-- C6: `errorMessage(key)` returns `none` (the JavaScript `undefined`,
no exception) exactly when no entry of `errorsArray` has the given key,
and when the array splits as `pre ++ e :: post` with `e` the first
entry whose key matches, it returns `e`'s message. -/
theorem c6_errorMessage_first_match :
    ∀ (l : List InvalidDetails) (k : String),
      (errorMessage l k = none ↔ ∀ e ∈ l, e.key ≠ k)
      ∧ ∀ (pre post : List InvalidDetails) (e : InvalidDetails),
          l = pre ++ e :: post → e.key = k → (∀ e2 ∈ pre, e2.key ≠ k) →
          errorMessage l k = some e.message := by
  intro l k
  constructor
  · simp [errorMessage, List.find?_eq_none]
  · rintro pre post e rfl he hpre
    unfold errorMessage
    rw [find?_append_first _ pre post e (by simp [he])
      (fun x hx => by simp [hpre x hx])]
    rfl

/-- Witness for C6 at a concrete errors array in which the key `"x"`
occurs twice: the first match wins, and a missing key yields `none`. -/
theorem c6_witness :
    errorMessage [⟨"a", "m1"⟩, ⟨"x", "m2"⟩, ⟨"x", "m3"⟩] "x" = some "m2"
    ∧ (errorMessage [⟨"a", "m1"⟩] "z" = none ↔ ∀ e ∈ [(⟨"a", "m1"⟩ : InvalidDetails)], e.key ≠ "z") :=
  ⟨(c6_errorMessage_first_match [⟨"a", "m1"⟩, ⟨"x", "m2"⟩, ⟨"x", "m3"⟩] "x").2
      [⟨"a", "m1"⟩] [⟨"x", "m3"⟩] ⟨"x", "m2"⟩ rfl rfl (by decide),
    (c6_errorMessage_first_match [⟨"a", "m1"⟩] "z").1⟩

/-- C7: when no validators were configured — the options bag absent
entirely, or present without a validators list — `hasValidator`
returns `false` for every validator reference. -/
theorem c7_hasValidator_none :
    ∀ (opts : Option FormFieldOptions) (v : Validator),
      (opts = none ∨ ∃ o, opts = some o ∧ o.validators = none) →
      fieldHasValidator opts v = false := by
  rintro opts v (rfl | ⟨o, rfl, ho⟩)
  · rfl
  · simp [fieldHasValidator, hasValidatorExt, ho]

/-- Witness for C7 at concrete inputs: an absent options bag and an
options bag with no validators list. -/
theorem c7_witness :
    fieldHasValidator none 3 = false ∧ fieldHasValidator (some {}) 3 = false :=
  ⟨c7_hasValidator_none none 3 (Or.inl rfl),
    c7_hasValidator_none (some {}) 3 (Or.inr ⟨{}, rfl, rfl⟩)⟩

/-- C8: the reset-callback slot holds at most one callback and
re-registration replaces it (last-write-wins); the trace of one
`reset()` call contains exactly one callback invocation, of the
currently registered callback with `defaultValue` as argument; that
invocation is the last event of the trace, after the three cell
restores; and the state in which the callback runs (the synchronous
part of `reset()`) already has `value = defaultValue`,
`touchedState = UNTOUCHED` and `dirtyState = PRISTINE`. -/
theorem c8_reset_callback_protocol {α : Type} [DecidableEq α]
    (d : Option α) (s : FieldState α) (f g : Nat) :
    (step d (step d s (Op.registerOnReset f)) (Op.registerOnReset g)).onReset = g
    ∧ (resetTrace d s).filter isInvoke = [ResetEvent.invokeCallback s.onReset d]
    ∧ (resetTrace d s).getLast? = some (ResetEvent.invokeCallback s.onReset d)
    ∧ (resetTrace d s).dropLast
        = [ResetEvent.setValue d, ResetEvent.setTouched TouchedState.UNTOUCHED,
            ResetEvent.setDirty DirtyState.PRISTINE]
    ∧ step d s Op.reset = runDirtyEffect (resetSync d s)
    ∧ (resetSync d s).value = d
    ∧ (resetSync d s).touchedState = TouchedState.UNTOUCHED
    ∧ (resetSync d s).dirtyState = DirtyState.PRISTINE :=
  ⟨rfl, rfl, rfl, rfl, rfl, rfl, rfl, rfl⟩

/-- C9: in every reachable field state — any operation sequence from
any initial value — the `valid` signal is `true` exactly when the
`state` signal is `'VALID'`; no operation ever sets `valid`
independently of `state`, since `valid` is the fixed derivation of
form-field.ts line 123. -/
theorem c9_valid_iff_state_valid {α : Type} [DecidableEq α]
    (stateOf : Option α → ValidationState) (d v0 : Option α) (ops : List (Op α)) :
    validView stateOf (run d (initState v0) ops) = true
    ↔ stateView stateOf (run d (initState v0) ops) = ValidationState.VALID := by
  simp [validView]

/-- C10: when the dirty tracker's recorded previous value is
`undefined` — the same token `none` as the no-baseline sentinel — the
next value write never changes `dirtyState`, so a write from
`undefined` can never by itself make the field dirty; a field whose
initial value is `undefined` starts in exactly this situation, and
writing `undefined` re-enters it. -/
theorem c10_undefined_no_baseline {α : Type} [DecidableEq α]
    (d : Option α) (s : FieldState α) (v : Option α) (h : s.previousValue = none) :
    (step d s (Op.write v)).dirtyState = s.dirtyState
    ∧ (initState (none : Option α)).previousValue = none
    ∧ (step d s (Op.write none)).previousValue = none := by
  refine ⟨?_, ?_, ?_⟩
  · exact runDirtyEffect_dirtyState_of_none { s with value := v } h
  · unfold initState
    exact runDirtyEffect_previousValue _
  · exact runDirtyEffect_previousValue { s with value := none }

/-- Witness for C10 at concrete inputs: a field constructed with
initial value `undefined` and default `3`; the write of `7` leaves
`dirtyState` unchanged. -/
theorem c10_witness :
    (step (some (3 : Nat)) (initState none) (Op.write (some 7))).dirtyState
      = (initState (none : Option Nat)).dirtyState :=
  (c10_undefined_no_baseline (some 3) (initState none) (some 7) (by decide)).1

end NgSignalForms
